import Mathlib

/-!
Verification of the rate-limited, retrying fetch pipeline of
`src/etl/full_etl.py` (football_analysis).

Shallow embedding conventions:
* JSON payloads returned by the remote API are modeled by `JVal`
  (objects are association lists; pandas `NaN` cells are `JVal.nan`).
* One HTTP GET attempt is modeled by `GetOutcome`: HTTP 200 with a parsed
  body, a non-200 status, or a `requests.RequestException`.  An attempt
  schedule is a function `Nat → GetOutcome` giving the outcome of the
  i-th attempt (0-based).
* Python code that can raise is embedded in `Except String`, the error
  string naming the Python exception class.
* External collaborators (logging, the database writes
  `CREATE OR REPLACE TABLE ...`, and real clock time) are not value-relevant
  to the fetch pipeline; the observable effects the specification talks
  about (which fetchers get invoked, the pacing sleeps of the batch loop,
  the close of the database connection) are recorded in explicit event lists.
* pandas behavior follows pandas >= 1.1: `DataFrame.drop_duplicates`
  returns the frame unchanged (without validating `subset`) when the frame
  is empty, and raises `KeyError` when the frame is nonempty and a `subset`
  column is absent; `json_normalize` flattens nested objects into
  dot-joined column names, modeled here as key paths (`Col = List String`),
  and keeps the first row of each duplicate group when deduplicating.
* `time.sleep` durations are rationals; the retry delays inside
  `fetch_json` / `fetch_team_players` influence nothing observable and are
  not recorded, while the batch-pacing sleeps of `fetch_all_players`
  (line 167 of the source) are recorded as `Ev.slept` events.
-/

/-- JSON-like values as produced by `resp.json()`, plus `nan` for pandas
missing cells. -/
inductive JVal where
  | null
  | nan
  | jbool (b : Bool)
  | num (n : Int)
  | str (s : String)
  | obj (fields : List (String × JVal))
  | arr (elems : List JVal)

mutual

/-- Structural equality test for `JVal` (Python `==` on parsed JSON). -/
def JVal.beq : JVal → JVal → Bool
  | .null, .null => true
  | .nan, .nan => true
  | .jbool a, .jbool b => a == b
  | .num a, .num b => a == b
  | .str a, .str b => a == b
  | .obj fs, .obj gs => JVal.beqFields fs gs
  | .arr xs, .arr ys => JVal.beqList xs ys
  | _, _ => false

/-- Pointwise equality of object field lists. -/
def JVal.beqFields : List (String × JVal) → List (String × JVal) → Bool
  | [], [] => true
  | (k, v) :: fs, (l, w) :: gs => k == l && JVal.beq v w && JVal.beqFields fs gs
  | _, _ => false

/-- Pointwise equality of array element lists. -/
def JVal.beqList : List JVal → List JVal → Bool
  | [], [] => true
  | x :: xs, y :: ys => JVal.beq x y && JVal.beqList xs ys
  | _, _ => false

end

theorem JVal.beq_refl :
    ∀ n, (∀ a : JVal, sizeOf a ≤ n → JVal.beq a a = true)
      ∧ (∀ fs : List (String × JVal), sizeOf fs ≤ n → JVal.beqFields fs fs = true)
      ∧ (∀ xs : List JVal, sizeOf xs ≤ n → JVal.beqList xs xs = true) := by
  intro n
  induction n using Nat.strong_induction_on with
  | _ n ih =>
    refine ⟨?_, ?_, ?_⟩
    · intro a ha
      cases a <;> simp [JVal.beq]
      · rename_i fs
        rcases n with _ | m
        · simp at ha
        · exact (ih m (Nat.lt_succ_self m)).2.1 fs (by simp at ha; omega)
      · rename_i xs
        rcases n with _ | m
        · simp at ha
        · exact (ih m (Nat.lt_succ_self m)).2.2 xs (by simp at ha; omega)
    · intro fs hfs
      cases fs with
      | nil => simp [JVal.beqFields]
      | cons p rest =>
        rcases p with ⟨k, v⟩
        rcases n with _ | m
        · simp at hfs
        · simp only [JVal.beqFields, Bool.and_eq_true, beq_self_eq_true, true_and]
          constructor
          · exact (ih m (Nat.lt_succ_self m)).1 v (by simp at hfs; omega)
          · exact (ih m (Nat.lt_succ_self m)).2.1 rest (by simp at hfs; omega)
    · intro xs hxs
      cases xs with
      | nil => simp [JVal.beqList]
      | cons x rest =>
        rcases n with _ | m
        · simp at hxs
        · simp only [JVal.beqList, Bool.and_eq_true]
          constructor
          · exact (ih m (Nat.lt_succ_self m)).1 x (by simp at hxs; omega)
          · exact (ih m (Nat.lt_succ_self m)).2.2 rest (by simp at hxs; omega)

theorem JVal.beq_sound :
    ∀ n, (∀ a b : JVal, sizeOf a ≤ n → JVal.beq a b = true → a = b)
      ∧ (∀ fs gs : List (String × JVal), sizeOf fs ≤ n → JVal.beqFields fs gs = true → fs = gs)
      ∧ (∀ xs ys : List JVal, sizeOf xs ≤ n → JVal.beqList xs ys = true → xs = ys) := by
  intro n
  induction n using Nat.strong_induction_on with
  | _ n ih =>
    refine ⟨?_, ?_, ?_⟩
    · intro a b ha hab
      cases a <;> cases b <;> simp_all [JVal.beq]
      · rename_i fs gs
        exact (ih (sizeOf fs) (by omega)).2.1 fs gs (Nat.le_refl _) hab
      · rename_i xs ys
        exact (ih (sizeOf xs) (by omega)).2.2 xs ys (Nat.le_refl _) hab
    · intro fs gs hfs hfg
      cases fs with
      | nil => cases gs with
        | nil => rfl
        | cons q qs => simp [JVal.beqFields] at hfg
      | cons p ps =>
        cases gs with
        | nil => simp [JVal.beqFields] at hfg
        | cons q qs =>
          rcases p with ⟨k, v⟩
          rcases q with ⟨l, w⟩
          rcases n with _ | m
          · simp at hfs
          · simp only [JVal.beqFields, Bool.and_eq_true, beq_iff_eq] at hfg
            obtain ⟨⟨hkl, hvw⟩, hrest⟩ := hfg
            have h1 := (ih m (Nat.lt_succ_self m)).1 v w (by simp at hfs; omega) hvw
            have h2 := (ih m (Nat.lt_succ_self m)).2.1 ps qs (by simp at hfs; omega) hrest
            subst hkl h1 h2
            rfl
    · intro xs ys hxs hxy
      cases xs with
      | nil => cases ys with
        | nil => rfl
        | cons y ys' => simp [JVal.beqList] at hxy
      | cons x xs' =>
        cases ys with
        | nil => simp [JVal.beqList] at hxy
        | cons y ys' =>
          rcases n with _ | m
          · simp at hxs
          · simp only [JVal.beqList, Bool.and_eq_true] at hxy
            obtain ⟨hv, hrest⟩ := hxy
            have h1 := (ih m (Nat.lt_succ_self m)).1 x y (by simp at hxs; omega) hv
            have h2 := (ih m (Nat.lt_succ_self m)).2.2 xs' ys' (by simp at hxs; omega) hrest
            subst h1 h2
            rfl

theorem JVal.beq_iff_eq (a b : JVal) : JVal.beq a b = true ↔ a = b := by
  constructor
  · exact (JVal.beq_sound (sizeOf a)).1 a b (Nat.le_refl _)
  · rintro rfl
    exact (JVal.beq_refl (sizeOf a)).1 a (Nat.le_refl _)

instance : DecidableEq JVal := fun a b =>
  decidable_of_iff (JVal.beq a b = true) (JVal.beq_iff_eq a b)

/-- An unflattened JSON object (a Python dict), as appearing in API payloads. -/
abbrev Record := List (String × JVal)

/-- A flattened column name: the path of keys that `pd.json_normalize`
joins with dots (the path `[a, b]` stands for the column name `a.b`). -/
abbrev Col := List String

/-- A flattened row of a pandas DataFrame produced by `json_normalize`. -/
abbrev Row := List (Col × JVal)

/-- Python truthiness of a parsed JSON value (`if data and ...`). -/
def pyTruthy : JVal → Bool
  | .null => false
  | .nan => true
  | .jbool b => b
  | .num n => n != 0
  | .str s => s ≠ ""
  | .obj fs => !fs.isEmpty
  | .arr xs => !xs.isEmpty

/-- Python `key in data` on a parsed JSON value: key lookup on a dict,
membership on a list, substring test on a string, `TypeError` otherwise. -/
def pyContains (k : String) : JVal → Except String Bool
  | .obj fs => .ok (fs.any fun p => p.1 == k)
  | .arr xs => .ok (xs.any fun v => v == .str k)
  | .str s => .ok (k == "" || (s.splitOn k).length ≥ 2)
  | _ => .error "TypeError"

/-- Python `data[key]` on a parsed JSON value (only dicts support string
subscripts; `fetch_teams` / `fetch_matches` reach this only after a
successful `in` test, so the dict case never raises `KeyError` there). -/
def pyGetItem (v : JVal) (k : String) : Except String JVal :=
  match v with
  | .obj fs => match fs.lookup k with
    | some x => .ok x
    | none => .error "KeyError"
  | _ => .error "TypeError"

/-- Python `dict.get(key, default)`. -/
def dictGet (fields : Record) (k : String) (dflt : JVal) : JVal :=
  match fields.lookup k with
  | some v => v
  | none => dflt

/-- Python `d[key] = v` on a dict: replaces the value of an existing key
(every stored occurrence, since a dict holds a key at most once),
otherwise appends the new key at the end. -/
def setKey (r : Record) (k : String) (v : JVal) : Record :=
  if r.any fun p => p.1 == k then
    r.map fun p => if p.1 == k then (k, v) else p
  else r ++ [(k, v)]

mutual

/-- Flattening of one record by `pd.json_normalize`: nested objects become
independently addressable columns named by their key path; other values
(scalars, arrays) are kept as cell values. -/
def flattenFields (pre : Col) : List (String × JVal) → Row
  | [] => []
  | (k, v) :: rest => flattenEntry pre k v ++ flattenFields pre rest

/-- Flattening of a single field: a nested object is expanded under the
extended key path, any other value becomes one cell. -/
def flattenEntry (pre : Col) (k : String) : JVal → Row
  | .obj fs => flattenFields (pre ++ [k]) fs
  | v => [(pre ++ [k], v)]

end

/-- The `pd.json_normalize(records)` call of `fetch_all_players` (line 169):
its argument `all_players` is a Python list of dicts, giving one flattened
row per record. -/
def json_normalize (records : List Record) : List Row :=
  records.map (flattenFields [])

/-- The `pd.json_normalize(data[...])` calls of `fetch_teams` /
`fetch_matches` (lines 108, 124), whose argument is an arbitrary JSON
value: a list of dicts gives one row per dict, a single dict gives one
row, anything else raises. -/
def json_normalizeJ : JVal → Except String (List Row)
  | .arr xs =>
    if xs.all fun v => match v with | .obj _ => true | _ => false then
      .ok (xs.map fun v => match v with | .obj fs => flattenFields [] fs | _ => [])
    else .error "AttributeError"
  | .obj fs => .ok [flattenFields [] fs]
  | _ => .error "AttributeError"

/-- Cell lookup in a flattened row; `none` is a missing cell (pandas NaN). -/
def rowLookup (r : Row) (c : Col) : Option JVal := r.lookup c

/-- The columns of a DataFrame: every column name occurring in some row.
Order and multiplicity of this list are irrelevant; only membership is
used by the modeled operations. -/
def columnsOf (rows : List Row) : List Col :=
  rows.flatMap fun r => r.map Prod.fst

/-- pandas `DataFrame.empty`: no rows or no columns. -/
def dfEmpty (rows : List Row) : Bool :=
  rows.isEmpty || (columnsOf rows).isEmpty

/-- pandas column access `df[c]` (used as `df_teams['id']` on line 160):
`KeyError` when the column is absent, and missing cells read as NaN. -/
def dfColumn (rows : List Row) (c : Col) : Except String (List JVal) :=
  if c ∈ columnsOf rows then
    .ok (rows.map fun r => (rowLookup r c).getD .nan)
  else .error "KeyError"

/-- pandas column-list selection `df[[c, ...]]` (used as
`df_teams[['id','name']]` on line 179); only its raising behavior is
value-relevant here. -/
def requireColumns (rows : List Row) (cs : List Col) : Except String Unit :=
  if cs.all fun c => c ∈ columnsOf rows then .ok () else .error "KeyError"

/-- Core of `drop_duplicates(subset=[k], keep='first')`: keep a row iff its
key value has not been seen in an earlier row.  pandas groups NaN cells
together, matching `none = none` here. -/
def dedupByKeyAux (k : Col) (seen : List (Option JVal)) : List Row → List Row
  | [] => []
  | r :: rs =>
    if rowLookup r k ∈ seen then dedupByKeyAux k seen rs
    else r :: dedupByKeyAux k (rowLookup r k :: seen) rs

/-- pandas `df.drop_duplicates(subset=[k])` (line 169), pandas >= 1.1
behavior: an empty frame is returned unchanged without validating
`subset`; on a nonempty frame a missing subset column raises `KeyError`. -/
def drop_duplicates (rows : List Row) (k : Col) : Except String (List Row) :=
  if dfEmpty rows then .ok rows
  else if k ∈ columnsOf rows then .ok (dedupByKeyAux k [] rows)
  else .error "KeyError"

/-- Modelled from the spec: the deduplication contract in its own words —
"when multiple rows share the same key value, keep only the first
occurrence in input order and drop the rest".  Compared against the
`drop_duplicates` embedding above. -/
def keepFirstByKey (k : Col) : List Row → List Row
  | [] => []
  | r :: rs =>
      r :: keepFirstByKey k (rs.filter fun p => decide (rowLookup p k ≠ rowLookup r k))
termination_by l => l.length
decreasing_by
  simp only [List.length_cons]
  exact Nat.lt_succ_of_le (List.length_filter_le _ _)

/-- Outcome of a single `requests.get` attempt: HTTP 200 with a parsed
JSON body, a non-200 status code, or a `requests.RequestException`. -/
inductive GetOutcome where
  | ok (payload : JVal)
  | httpError (status : Nat)
  | netError (msg : String)

/-- Retry loop of `fetch_json` (lines 90-99): `fuel` attempts remain and
`made` attempts were already made.  A 200 response returns the parsed
body immediately; any other status or a request exception is logged,
slept over, and retried.  Returns the result together with the total
number of GET attempts performed. -/
def fetchJsonAux (get : Nat → GetOutcome) : Nat → Nat → Option JVal × Nat
  | 0, made => (none, made)
  | fuel + 1, made =>
    match get made with
    | .ok payload => (some payload, made + 1)
    | .httpError _ => fetchJsonAux get fuel (made + 1)
    | .netError _ => fetchJsonAux get fuel (made + 1)

/-- The HTTP Fetcher `fetch_json(url, headers, retries, sleep_between)`
(lines 88-101): up to `retries` attempts; `None` after exhausting them.
The URL and headers are summarized by the attempt schedule `get`; the
second component counts GET attempts. -/
def fetch_json (get : Nat → GetOutcome) (retries : Nat) : Option JVal × Nat :=
  fetchJsonAux get retries 0

/-- Tagging loop of `fetch_team_players` (lines 143-144):
`player['team_id'] = team_id` for each squad member.  A non-dict squad
member raises `TypeError` (uncaught: the surrounding `except` only
handles `requests.RequestException`). -/
def tagPlayers (team_id : JVal) : List JVal → Except String (List Record)
  | [] => .ok []
  | .obj fs :: rest =>
    match tagPlayers team_id rest with
    | .ok tail => .ok (setKey fs "team_id" team_id :: tail)
    | .error e => .error e
  | _ :: _ => .error "TypeError"

/-- Handling of a 200 response in `fetch_team_players` (lines 142-145):
`squad = resp.json().get('squad', [])`, tag each member, return the squad.
A non-dict body raises `AttributeError` (no `.get`); iterating a
non-list squad raises `TypeError`, except that iterating an empty dict
or empty string yields nothing and returns that (falsy) value, which
behaves downstream exactly like the empty list. -/
def tagSquad (team_id : JVal) (payload : JVal) : Except String (List Record) :=
  match payload with
  | .obj fields =>
    match dictGet fields "squad" (.arr []) with
    | .arr xs => tagPlayers team_id xs
    | .obj fs => if fs.isEmpty then .ok [] else .error "TypeError"
    | .str s => if s.isEmpty then .ok [] else .error "TypeError"
    | _ => .error "TypeError"
  | _ => .error "AttributeError"

/-- Retry loop of `fetch_team_players` (lines 137-150), same shape as
`fetchJsonAux`; after exhausting all attempts the function returns `[]`
(line 152). -/
def fetchTeamPlayersAux (team_id : JVal) (get : Nat → GetOutcome) :
    Nat → Nat → Except String (List Record)
  | 0, _ => .ok []
  | fuel + 1, made =>
    match get made with
    | .ok payload => tagSquad team_id payload
    | .httpError _ => fetchTeamPlayersAux team_id get fuel (made + 1)
    | .netError _ => fetchTeamPlayersAux team_id get fuel (made + 1)

/-- `fetch_team_players(team_id, headers, retries, sleep_between)`
(lines 135-152). -/
def fetch_team_players (team_id : JVal) (get : Nat → GetOutcome) (retries : Nat) :
    Except String (List Record) :=
  fetchTeamPlayersAux team_id get retries 0

/-- Observable batch-loop events of `fetch_all_players`: one `fetched`
per processed identifier, and the pacing `time.sleep(sleep_between_calls)`
of line 167 with its duration in seconds. -/
inductive Ev where
  | fetched (team_id : JVal)
  | slept (seconds : ℚ)

/-- Result of a `fetch_all_players` run: the deduplicated player frame it
returns, the `failed_teams` list it accumulates, and the batch-loop
events it performs. -/
structure BatchOutcome where
  df_players : List Row
  failed_teams : List JVal
  events : List Ev

/-- The `for i, team_id in enumerate(df_teams['id'], start=1)` loop of
`fetch_all_players` (lines 160-167): fetch one team's players; a truthy
(nonempty) result is appended to `all_players`, otherwise the identifier
joins `failed_teams`; then the progress is logged and the pacing sleep
`time.sleep(sleep_between_calls)` runs — in every iteration, success or
failure alike.  An exception escaping `fetch_team_players` aborts the
loop, and so does the pacing sleep itself: `time.sleep` raises
`ValueError` for a negative duration, and since `fetch_all_players` only
reaches the loop with `requests_per_min ≠ 0` (line 158 would raise
`ZeroDivisionError` first), the duration `60 / requests_per_min` is
negative exactly when `requests_per_min < 0`. -/
def fetchAllPlayersLoop (get : JVal → Nat → GetOutcome) (retries : Nat)
    (requests_per_min : ℚ) :
    List JVal → List Record → List JVal → List Ev →
    Except String (List Record × List JVal × List Ev)
  | [], all_players, failed_teams, evs => .ok (all_players, failed_teams, evs)
  | team_id :: rest, all_players, failed_teams, evs =>
    match fetch_team_players team_id (get team_id) retries with
    | .error e => .error e
    | .ok players =>
      if requests_per_min < 0 then .error "ValueError"
      else
        fetchAllPlayersLoop get retries requests_per_min rest
          (if players.isEmpty then all_players else all_players ++ players)
          (if players.isEmpty then failed_teams ++ [team_id] else failed_teams)
          (evs ++ [.fetched team_id, .slept (60 / requests_per_min)])

/-- The Rate-Limited Batch Fetcher `fetch_all_players(df_teams, headers,
con, db_type, requests_per_min, retries, sleep_between)` (lines 154-183):
computes `sleep_between_calls = 60 / requests_per_min` (ZeroDivisionError
on a zero budget), walks `df_teams['id']` sequentially, deduplicates the
accumulated records by player id, writes the players table (external),
and — when any team failed — logs `df_teams[df_teams['id'].isin(...)][['id','name']]`,
which raises `KeyError` if the teams frame lacks those columns. -/
def fetch_all_players (df_teams : List Row) (get : JVal → Nat → GetOutcome)
    (requests_per_min : ℚ) (retries : Nat) : Except String BatchOutcome :=
  if requests_per_min = 0 then .error "ZeroDivisionError"
  else
    match dfColumn df_teams ["id"] with
    | .error e => .error e
    | .ok teamIds =>
      match fetchAllPlayersLoop get retries requests_per_min teamIds [] [] [] with
      | .error e => .error e
      | .ok (all_players, failed_teams, evs) =>
        match drop_duplicates (json_normalize all_players) ["id"] with
        | .error e => .error e
        | .ok df_players =>
          if failed_teams.isEmpty then .ok ⟨df_players, failed_teams, evs⟩
          else
            match requireColumns df_teams [["id"], ["name"]] with
            | .error e => .error e
            | .ok _ => .ok ⟨df_players, failed_teams, evs⟩

/-- `fetch_teams(headers, con, db_type)` (lines 103-117): one `fetch_json`
call with the default `retries=3`; on `data and "teams" in data` the
teams list is normalized, written to the store (external) and returned,
otherwise an empty frame is returned. -/
def fetch_teams (get : Nat → GetOutcome) : Except String (List Row) :=
  match (fetch_json get 3).1 with
  | none => .ok []
  | some data =>
    if pyTruthy data then
      match pyContains "teams" data with
      | .error e => .error e
      | .ok true =>
        match pyGetItem data "teams" with
        | .error e => .error e
        | .ok teams => json_normalizeJ teams
      | .ok false => .ok []
    else .ok []

/-- `fetch_matches(headers, con, db_type, season)` (lines 119-133), the
same shape as `fetch_teams` with the `matches` payload field. -/
def fetch_matches (get : Nat → GetOutcome) : Except String (List Row) :=
  match (fetch_json get 3).1 with
  | none => .ok []
  | some data =>
    if pyTruthy data then
      match pyContains "matches" data with
      | .error e => .error e
      | .ok true =>
        match pyGetItem data "matches" with
        | .error e => .error e
        | .ok matchesVal => json_normalizeJ matchesVal
      | .ok false => .ok []
    else .ok []

/-- The `etl` section of the run configuration used by `main`
(lines 197-199). -/
structure Config where
  requests_per_min : ℚ
  retries_per_team : Nat

/-- External behaviors of one orchestrated run: whether
`get_db_connection` succeeds, the attempt schedules of the teams fetch,
the matches fetch, and the per-team player fetches, and whether
`con.close()` succeeds. -/
structure Env where
  connect : Except String Unit
  teamsGet : Nat → GetOutcome
  matchesGet : Nat → GetOutcome
  playersGet : JVal → Nat → GetOutcome
  closeOk : Bool

/-- Observable orchestration events of `main`: acquiring the connection,
invoking each fetch stage (recorded at call time, before the callee may
raise), and the `con.close()` attempt of the `finally` block. -/
inductive MainEv where
  | connected
  | callTeams
  | callMatches
  | callPlayers (df_teams : List Row)
  | closeAttempt

/-- Terminal status of an orchestrated run: completed normally, aborted
early on empty teams, or ended in the top-level exception handler. -/
inductive RunState where
  | done
  | aborted
  | failed

/-- Result of `main`: the events performed and the terminal status.
`main` itself never raises. -/
structure MainResult where
  events : List MainEv
  state : RunState

/-- The `try` block of `main` (lines 202-219): connect, fetch teams,
abort when the teams frame is empty, fetch matches, fetch all players.
`.error` is an exception escaping to the `except` handler; `.ok b` is a
normal exit with `b` marking the early `return` of line 209. -/
def mainTry (cfg : Config) (env : Env) : List MainEv × Except String Bool :=
  match env.connect with
  | .error e => ([], .error e)
  | .ok _ =>
    match fetch_teams env.teamsGet with
    | .error e => ([.connected, .callTeams], .error e)
    | .ok df_teams =>
      if dfEmpty df_teams then ([.connected, .callTeams], .ok true)
      else
        match fetch_matches env.matchesGet with
        | .error e => ([.connected, .callTeams, .callMatches], .error e)
        | .ok _df_matches =>
          match fetch_all_players df_teams env.playersGet
              cfg.requests_per_min cfg.retries_per_team with
          | .error e =>
            ([.connected, .callTeams, .callMatches, .callPlayers df_teams], .error e)
          | .ok _ =>
            ([.connected, .callTeams, .callMatches, .callPlayers df_teams], .ok false)

/-- The ETL Orchestrator `main(config_dict)` (lines 188-230): the `try`
block above, an `except Exception` handler that only logs, and a
`finally` block that attempts `con.close()` exactly when the connection
was acquired (`con is not None`), itself shielded by a `try/except`.
(Named `main'` because Lean reserves `main` for program entry points.) -/
def main' (cfg : Config) (env : Env) : MainResult :=
  let body := mainTry cfg env
  let closeEvs := match env.connect with
    | .ok _ => [MainEv.closeAttempt]
    | .error _ => []
  { events := body.1 ++ closeEvs
    state := match body.2 with
      | .error _ => .failed
      | .ok true => .aborted
      | .ok false => .done }

/-- Did a GET attempt return HTTP 200? -/
def GetOutcome.isSuccess : GetOutcome → Bool
  | .ok _ => true
  | _ => false

/-- Records contributed by one team in a run of the batch loop (empty
both when the team's fetch exhausts its retries and when its squad is
empty). -/
def teamRows (get : JVal → Nat → GetOutcome) (retries : Nat) (i : JVal) : List Record :=
  match fetch_team_players i (get i) retries with
  | .ok l => l
  | .error _ => []

/-- The identifier contributed at least one row of the returned player
frame, witnessed by its `team_id` tag. -/
def taggedInRows (br : BatchOutcome) (i : JVal) : Prop :=
  ∃ r ∈ br.df_players, rowLookup r ["team_id"] = some i

/-- The claimed `BatchOutcome` invariant, in the spec's words: every input
identifier appears exactly once in either the contributed rows (by
`team_id` tag) or `failed_teams` — never both, never neither. -/
def partitionInvariant (ids : List JVal) (br : BatchOutcome) : Prop :=
  ∀ i ∈ ids, (taggedInRows br i ∧ i ∉ br.failed_teams)
    ∨ (¬ taggedInRows br i ∧ i ∈ br.failed_teams)

/-- Recognizer for the `con.close()` attempt among orchestration events. -/
def isCloseAttempt : MainEv → Bool
  | .closeAttempt => true
  | _ => false

/-- Recognizer for pacing-sleep events of the batch loop. -/
def isSleptEv : Ev → Bool
  | .slept _ => true
  | _ => false

section LookupLemmas

theorem lookup_append {α β : Type} [BEq α] (l₁ l₂ : List (α × β)) (x : α) :
    List.lookup x (l₁ ++ l₂)
      = match List.lookup x l₁ with
        | some v => some v
        | none => List.lookup x l₂ := by
  induction l₁ with
  | nil => simp
  | cons p rest ih =>
    rcases p with ⟨a, b⟩
    by_cases h : x == a
    · simp [List.lookup, h]
    · simp only [List.cons_append, List.lookup, h]
      exact ih

theorem lookup_eq_none_of_not_mem {α β : Type} [BEq α] [LawfulBEq α]
    (l : List (α × β)) (x : α) (h : ∀ w, (x, w) ∉ l) : List.lookup x l = none := by
  induction l with
  | nil => simp
  | cons p rest ih =>
    rcases p with ⟨a, b⟩
    have hxa : (x == a) = false := by
      rcases hb : x == a with _ | _
      · rfl
      · exact absurd (by rw [eq_of_beq hb]; exact List.mem_cons_self _ _) (h b)
    simp only [List.lookup, hxa]
    exact ih fun w hw => h w (List.mem_cons_of_mem _ hw)

theorem mem_of_lookup_eq_some {α β : Type} [BEq α] [LawfulBEq α]
    (l : List (α × β)) (x : α) (w : β) (h : List.lookup x l = some w) : (x, w) ∈ l := by
  induction l with
  | nil => simp at h
  | cons p rest ih =>
    rcases p with ⟨a, b⟩
    rcases hb : x == a with _ | _
    · simp only [List.lookup, hb] at h
      exact List.mem_cons_of_mem _ (ih h)
    · simp only [List.lookup, hb, Option.some.injEq] at h
      rw [eq_of_beq hb, h]
      exact List.mem_cons_self _ _

end LookupLemmas

section SetKeyLemmas

theorem setKey_value (fs : Record) (k : String) (v : JVal) :
    ∀ w, (k, w) ∈ setKey fs k v → w = v := by
  intro w hw
  unfold setKey at hw
  by_cases h : fs.any fun p => p.1 == k
  · rw [if_pos h] at hw
    rcases List.mem_map.mp hw with ⟨p, _, hp⟩
    by_cases hk : (p.1 == k) = true
    · rw [if_pos hk] at hp
      simp only [Prod.mk.injEq] at hp
      exact hp.2.symm
    · rw [if_neg hk] at hp
      subst hp
      simp at hk
  · rw [if_neg h] at hw
    rcases List.mem_append.mp hw with hl | hr
    · exact absurd (List.any_eq_true.mpr ⟨(k, w), hl, beq_self_eq_true k⟩) h
    · simpa using hr

theorem setKey_mem (fs : Record) (k : String) (v : JVal) :
    (k, v) ∈ setKey fs k v := by
  unfold setKey
  by_cases h : fs.any fun p => p.1 == k
  · rw [if_pos h]
    rcases List.any_eq_true.mp h with ⟨p, hp, hpk⟩
    exact List.mem_map.mpr ⟨p, hp, by rw [if_pos hpk]⟩
  · rw [if_neg h]
    exact List.mem_append.mpr (Or.inr (List.mem_cons_self _ _))

end SetKeyLemmas

section FlattenLemmas

theorem flattenEntry_eq_of_ne_obj (pre : Col) (k : String) (v : JVal)
    (h : ∀ gs, v ≠ .obj gs) : flattenEntry pre k v = [(pre ++ [k], v)] := by
  cases v
  case obj fs => exact absurd rfl (h fs)
  all_goals rfl

theorem flatten_mem :
    ∀ n, (∀ fs : List (String × JVal), sizeOf fs ≤ n → ∀ pre c w,
            (c, w) ∈ flattenFields pre fs →
            (∃ k rest, c = pre ++ k :: rest) ∧ ∀ gs, w ≠ JVal.obj gs)
      ∧ (∀ v : JVal, sizeOf v ≤ n → ∀ pre k c w,
            (c, w) ∈ flattenEntry pre k v →
            (∃ rest, c = pre ++ k :: rest) ∧ ∀ gs, w ≠ JVal.obj gs) := by
  intro n
  induction n using Nat.strong_induction_on with
  | _ n ih =>
    constructor
    · intro fs hfs pre c w hmem
      cases fs with
      | nil => simp [flattenFields] at hmem
      | cons p rest =>
        rcases p with ⟨k, v⟩
        rw [show flattenFields pre ((k, v) :: rest)
            = flattenEntry pre k v ++ flattenFields pre rest from rfl] at hmem
        rcases List.mem_append.mp hmem with h1 | h2
        · rcases (ih (sizeOf v) (by simp at hfs; omega)).2 v (Nat.le_refl _) pre k c w h1
            with ⟨⟨tail, hc⟩, hobj⟩
          exact ⟨⟨k, tail, hc⟩, hobj⟩
        · exact (ih (sizeOf rest) (by simp at hfs; omega)).1 rest (Nat.le_refl _) pre c w h2
    · intro v hv pre k c w hmem
      cases v
      case obj fs =>
        rw [show flattenEntry pre k (.obj fs) = flattenFields (pre ++ [k]) fs from rfl] at hmem
        rcases (ih (sizeOf fs) (by simp at hv; omega)).1 fs (Nat.le_refl _) (pre ++ [k]) c w hmem
          with ⟨⟨k', rest', hc⟩, hobj⟩
        exact ⟨⟨k' :: rest', by simp [hc]⟩, hobj⟩
      all_goals {
        rw [flattenEntry_eq_of_ne_obj _ _ _ (fun gs hg => by cases hg)] at hmem
        simp only [List.mem_singleton, Prod.mk.injEq] at hmem
        obtain ⟨hc, hw⟩ := hmem
        subst hw
        exact ⟨⟨[], hc⟩, fun gs hg => by cases hg⟩
      }

theorem flatten_lookup (k0 : String) (v0 : JVal) (hv0 : ∀ gs, v0 ≠ .obj gs) :
    ∀ fs : Record, (∀ w, (k0, w) ∈ fs → w = v0) → (k0, v0) ∈ fs →
      rowLookup (flattenFields [] fs) [k0] = some v0 := by
  intro fs
  induction fs with
  | nil => intro _ h; simp at h
  | cons p rest ih =>
    rcases p with ⟨k, v⟩
    intro hall hmem
    unfold rowLookup
    rw [show flattenFields [] ((k, v) :: rest)
        = flattenEntry [] k v ++ flattenFields [] rest from rfl]
    rw [lookup_append]
    by_cases hk : k = k0
    · subst hk
      have hv : v = v0 := hall v (List.mem_cons_self _ _)
      subst hv
      rw [flattenEntry_eq_of_ne_obj _ _ _ hv0]
      simp [List.lookup]
    · have hnone : List.lookup [k0] (flattenEntry [] k v) = none := by
        apply lookup_eq_none_of_not_mem
        intro w hw
        rcases ((flatten_mem (sizeOf v)).2 v (Nat.le_refl _) [] k [k0] w hw).1 with ⟨tail, hc⟩
        simp only [List.nil_append, List.cons.injEq] at hc
        exact hk hc.1.symm
      rw [hnone]
      have hrest : (k0, v0) ∈ rest := by
        rcases List.mem_cons.mp hmem with hh | ht
        · exact absurd (congrArg Prod.fst hh).symm hk
        · exact ht
      exact ih (fun w hw => hall w (List.mem_cons_of_mem _ hw)) hrest

theorem tagged_lookup (fs : Record) (i : JVal) (hi : ∀ gs, i ≠ .obj gs) :
    rowLookup (flattenFields [] (setKey fs "team_id" i)) ["team_id"] = some i :=
  flatten_lookup "team_id" i hi _ (setKey_value fs "team_id" i) (setKey_mem fs "team_id" i)

end FlattenLemmas

section DedupLemmas

theorem keepFirstByKey_nil (k : Col) : keepFirstByKey k [] = [] := by
  rw [keepFirstByKey]

theorem keepFirstByKey_cons (k : Col) (r : Row) (rs : List Row) :
    keepFirstByKey k (r :: rs)
      = r :: keepFirstByKey k (rs.filter fun p => decide (rowLookup p k ≠ rowLookup r k)) := by
  rw [keepFirstByKey]

theorem dedupByKeyAux_subset (k : Col) :
    ∀ rows seen r, r ∈ dedupByKeyAux k seen rows → r ∈ rows := by
  intro rows
  induction rows with
  | nil => intro seen r h; simp [dedupByKeyAux] at h
  | cons r0 rs ih =>
    intro seen r h
    rw [show dedupByKeyAux k seen (r0 :: rs)
        = if rowLookup r0 k ∈ seen then dedupByKeyAux k seen rs
          else r0 :: dedupByKeyAux k (rowLookup r0 k :: seen) rs from rfl] at h
    by_cases hs : rowLookup r0 k ∈ seen
    · rw [if_pos hs] at h
      exact List.mem_cons_of_mem _ (ih seen r h)
    · rw [if_neg hs] at h
      rcases List.mem_cons.mp h with h1 | h2
      · exact h1 ▸ List.mem_cons_self _ _
      · exact List.mem_cons_of_mem _ (ih _ r h2)

theorem dedupByKeyAux_covers (k : Col) :
    ∀ rows seen v, v ∉ seen → v ∈ rows.map (fun r => rowLookup r k) →
      ∃ r ∈ dedupByKeyAux k seen rows, rowLookup r k = v := by
  intro rows
  induction rows with
  | nil => intro seen v _ h; simp at h
  | cons r0 rs ih =>
    intro seen v hv hmem
    rw [show dedupByKeyAux k seen (r0 :: rs)
        = if rowLookup r0 k ∈ seen then dedupByKeyAux k seen rs
          else r0 :: dedupByKeyAux k (rowLookup r0 k :: seen) rs from rfl]
    by_cases hs : rowLookup r0 k ∈ seen
    · rw [if_pos hs]
      have hrs : v ∈ rs.map (fun r => rowLookup r k) := by
        rcases List.mem_map.mp hmem with ⟨r, hr, hrv⟩
        rcases List.mem_cons.mp hr with h1 | h2
        · subst h1
          rw [hrv] at hs
          exact absurd hs hv
        · exact List.mem_map.mpr ⟨r, h2, hrv⟩
      exact ih seen v hv hrs
    · rw [if_neg hs]
      by_cases hveq : v = rowLookup r0 k
      · exact ⟨r0, List.mem_cons_self _ _, hveq.symm⟩
      · have hrs : v ∈ rs.map (fun r => rowLookup r k) := by
          rcases List.mem_map.mp hmem with ⟨r, hr, hrv⟩
          rcases List.mem_cons.mp hr with h1 | h2
          · subst h1
            exact absurd hrv.symm hveq
          · exact List.mem_map.mpr ⟨r, h2, hrv⟩
        have hv2 : v ∉ rowLookup r0 k :: seen := by
          simp only [List.mem_cons, not_or]
          exact ⟨hveq, hv⟩
        rcases ih _ v hv2 hrs with ⟨r, hr, hrv⟩
        exact ⟨r, List.mem_cons_of_mem _ hr, hrv⟩

theorem drop_duplicates_spec (rows : List Row) (k : Col) (out : List Row)
    (h : drop_duplicates rows k = .ok out) :
    (∀ r ∈ out, r ∈ rows) ∧
    (∀ v ∈ rows.map (fun r => rowLookup r k), ∃ r ∈ out, rowLookup r k = v) := by
  unfold drop_duplicates at h
  by_cases h1 : dfEmpty rows = true
  · rw [if_pos h1] at h
    simp only [Except.ok.injEq] at h
    subst h
    constructor
    · intro r hr; exact hr
    · intro v hv
      rcases List.mem_map.mp hv with ⟨r, hr, hrv⟩
      exact ⟨r, hr, hrv⟩
  · rw [if_neg h1] at h
    by_cases h2 : k ∈ columnsOf rows
    · rw [if_pos h2] at h
      simp only [Except.ok.injEq] at h
      subst h
      constructor
      · intro r hr; exact dedupByKeyAux_subset k rows [] r hr
      · intro v hv
        exact dedupByKeyAux_covers k rows [] v (by simp) hv
    · rw [if_neg h2] at h
      simp at h

theorem dedupByKeyAux_eq_keepFirst (k : Col) :
    ∀ rows seen, dedupByKeyAux k seen rows
      = keepFirstByKey k (rows.filter fun r => decide (rowLookup r k ∉ seen)) := by
  intro rows
  induction rows with
  | nil =>
    intro seen
    rw [List.filter_nil, keepFirstByKey_nil]
    rfl
  | cons r0 rs ih =>
    intro seen
    rw [show dedupByKeyAux k seen (r0 :: rs)
        = if rowLookup r0 k ∈ seen then dedupByKeyAux k seen rs
          else r0 :: dedupByKeyAux k (rowLookup r0 k :: seen) rs from rfl]
    by_cases hs : rowLookup r0 k ∈ seen
    · rw [if_pos hs]
      have hf : (r0 :: rs).filter (fun r => decide (rowLookup r k ∉ seen))
          = rs.filter (fun r => decide (rowLookup r k ∉ seen)) := by
        rw [List.filter_cons]
        simp [hs]
      rw [hf]
      exact ih seen
    · rw [if_neg hs]
      have hf : (r0 :: rs).filter (fun r => decide (rowLookup r k ∉ seen))
          = r0 :: rs.filter (fun r => decide (rowLookup r k ∉ seen)) := by
        rw [List.filter_cons]
        simp [hs]
      rw [hf, keepFirstByKey_cons]
      rw [ih (rowLookup r0 k :: seen), List.filter_filter]
      congr 1
      congr 1
      refine List.filter_congr fun r _ => ?_
      by_cases h1 : rowLookup r k = rowLookup r0 k <;>
        by_cases h2 : rowLookup r k ∈ seen <;>
          simp [h1, h2]

theorem drop_duplicates_keepFirst (rows : List Row) (k : Col)
    (hne : dfEmpty rows = false) (hcol : k ∈ columnsOf rows) :
    drop_duplicates rows k = .ok (keepFirstByKey k rows) := by
  unfold drop_duplicates
  rw [if_neg (by simp [hne]), if_pos hcol]
  have h := dedupByKeyAux_eq_keepFirst k rows []
  rw [h]
  congr 1
  have : (rows.filter fun r => decide (rowLookup r k ∉ ([] : List (Option JVal)))) = rows := by
    apply List.filter_eq_self.mpr
    intro r _
    simp
  rw [this]

end DedupLemmas

section RetryLemmas

theorem fetchJsonAux_all_fail (get : Nat → GetOutcome) :
    ∀ fuel made, (∀ i, i < fuel → (get (made + i)).isSuccess = false) →
      fetchJsonAux get fuel made = (none, made + fuel) := by
  intro fuel
  induction fuel with
  | zero => intro made _; simp [fetchJsonAux]
  | succ f ih =>
    intro made h
    have h0 : (get made).isSuccess = false := by
      have := h 0 (Nat.succ_pos f)
      simpa using this
    have hshift : ∀ i, i < f → (get (made + 1 + i)).isSuccess = false := by
      intro i hi
      have := h (i + 1) (by omega)
      rw [show made + 1 + i = made + (i + 1) from by omega]
      exact this
    cases hg : get made with
    | ok p =>
      rw [hg] at h0
      simp [GetOutcome.isSuccess] at h0
    | httpError st =>
      simp only [fetchJsonAux, hg]
      rw [ih (made + 1) hshift]
      rw [show made + 1 + f = made + (f + 1) from by omega]
    | netError m =>
      simp only [fetchJsonAux, hg]
      rw [ih (made + 1) hshift]
      rw [show made + 1 + f = made + (f + 1) from by omega]

theorem fetchJsonAux_succeeds (get : Nat → GetOutcome) :
    ∀ fuel made j p, j < fuel →
      (∀ i, i < j → (get (made + i)).isSuccess = false) →
      get (made + j) = .ok p →
      fetchJsonAux get fuel made = (some p, made + j + 1) := by
  intro fuel
  induction fuel with
  | zero => intro made j p hj _ _; omega
  | succ f ih =>
    intro made j p hj hfail hok
    cases j with
    | zero =>
      have hg : get made = .ok p := by simpa using hok
      simp [fetchJsonAux, hg]
    | succ j' =>
      have h0 : (get made).isSuccess = false := by
        have := hfail 0 (Nat.succ_pos j')
        simpa using this
      have hshift : ∀ i, i < j' → (get (made + 1 + i)).isSuccess = false := by
        intro i hi
        have := hfail (i + 1) (by omega)
        rw [show made + 1 + i = made + (i + 1) from by omega]
        exact this
      have hok' : get (made + 1 + j') = .ok p := by
        rw [show made + 1 + j' = made + (j' + 1) from by omega]
        exact hok
      cases hg : get made with
      | ok q =>
        rw [hg] at h0
        simp [GetOutcome.isSuccess] at h0
      | httpError st =>
        simp only [fetchJsonAux, hg]
        rw [ih (made + 1) j' p (by omega) hshift hok']
        rw [show made + 1 + j' + 1 = made + (j' + 1) + 1 from by omega]
      | netError m =>
        simp only [fetchJsonAux, hg]
        rw [ih (made + 1) j' p (by omega) hshift hok']
        rw [show made + 1 + j' + 1 = made + (j' + 1) + 1 from by omega]

theorem fetchTeamPlayersAux_all_fail (team_id : JVal) (get : Nat → GetOutcome) :
    ∀ fuel made, (∀ i, i < fuel → (get (made + i)).isSuccess = false) →
      fetchTeamPlayersAux team_id get fuel made = .ok [] := by
  intro fuel
  induction fuel with
  | zero => intro made _; rfl
  | succ f ih =>
    intro made h
    have h0 : (get made).isSuccess = false := by
      have := h 0 (Nat.succ_pos f)
      simpa using this
    have hshift : ∀ i, i < f → (get (made + 1 + i)).isSuccess = false := by
      intro i hi
      have := h (i + 1) (by omega)
      rw [show made + 1 + i = made + (i + 1) from by omega]
      exact this
    cases hg : get made with
    | ok p =>
      rw [hg] at h0
      simp [GetOutcome.isSuccess] at h0
    | httpError st =>
      simp only [fetchTeamPlayersAux, hg]
      exact ih (made + 1) hshift
    | netError m =>
      simp only [fetchTeamPlayersAux, hg]
      exact ih (made + 1) hshift

theorem fetch_team_players_all_fail (team_id : JVal) (get : Nat → GetOutcome) (retries : Nat)
    (h : ∀ i, i < retries → (get i).isSuccess = false) :
    fetch_team_players team_id get retries = .ok [] :=
  fetchTeamPlayersAux_all_fail team_id get retries 0 (fun i hi => by simpa using h i hi)

theorem tagPlayers_shape (i : JVal) :
    ∀ xs l, tagPlayers i xs = .ok l → ∀ rec ∈ l, ∃ fs, rec = setKey fs "team_id" i := by
  intro xs
  induction xs with
  | nil =>
    intro l h rec hrec
    simp only [tagPlayers, Except.ok.injEq] at h
    subst h
    simp at hrec
  | cons x xs ih =>
    intro l h rec hrec
    cases x with
    | obj fs =>
      rw [show tagPlayers i (JVal.obj fs :: xs)
          = match tagPlayers i xs with
            | .ok tail => .ok (setKey fs "team_id" i :: tail)
            | .error e => .error e from rfl] at h
      cases ht : tagPlayers i xs with
      | ok tail =>
        rw [ht] at h
        simp only [Except.ok.injEq] at h
        subst h
        rcases List.mem_cons.mp hrec with h1 | h2
        · exact ⟨fs, h1⟩
        · exact ih tail ht rec h2
      | error e =>
        rw [ht] at h
        simp at h
    | null => simp [tagPlayers] at h
    | nan => simp [tagPlayers] at h
    | jbool b => simp [tagPlayers] at h
    | num n => simp [tagPlayers] at h
    | str s => simp [tagPlayers] at h
    | arr ys => simp [tagPlayers] at h

theorem tagSquad_shape (i : JVal) (payload : JVal) :
    ∀ l, tagSquad i payload = .ok l → ∀ rec ∈ l, ∃ fs, rec = setKey fs "team_id" i := by
  intro l h rec hrec
  unfold tagSquad at h
  split at h
  · split at h
    · exact tagPlayers_shape i _ l h rec hrec
    · split at h
      · simp only [Except.ok.injEq] at h
        subst h
        simp at hrec
      · simp at h
    · split at h
      · simp only [Except.ok.injEq] at h
        subst h
        simp at hrec
      · simp at h
    · simp at h
  · simp at h

theorem fetchTeamPlayersAux_shape (team_id : JVal) (get : Nat → GetOutcome) :
    ∀ fuel made l, fetchTeamPlayersAux team_id get fuel made = .ok l →
      ∀ rec ∈ l, ∃ fs, rec = setKey fs "team_id" team_id := by
  intro fuel
  induction fuel with
  | zero =>
    intro made l h rec hrec
    simp only [fetchTeamPlayersAux, Except.ok.injEq] at h
    subst h
    simp at hrec
  | succ f ih =>
    intro made l h rec hrec
    cases hg : get made with
    | ok payload =>
      simp only [fetchTeamPlayersAux, hg] at h
      exact tagSquad_shape team_id payload l h rec hrec
    | httpError st =>
      simp only [fetchTeamPlayersAux, hg] at h
      exact ih (made + 1) l h rec hrec
    | netError m =>
      simp only [fetchTeamPlayersAux, hg] at h
      exact ih (made + 1) l h rec hrec

theorem fetch_team_players_shape (team_id : JVal) (get : Nat → GetOutcome) (retries : Nat)
    (l : List Record) (h : fetch_team_players team_id get retries = .ok l) :
    ∀ rec ∈ l, ∃ fs, rec = setKey fs "team_id" team_id :=
  fetchTeamPlayersAux_shape team_id get retries 0 l h

end RetryLemmas

section SquadLemmas

theorem tagSquad_empty (i : JVal) (fields : Record)
    (hsq : fields.lookup "squad" = none ∨ fields.lookup "squad" = some (.arr [])) :
    tagSquad i (.obj fields) = .ok [] := by
  have hd : dictGet fields "squad" (.arr []) = .arr [] := by
    unfold dictGet
    rcases hsq with h | h <;> rw [h]
  simp only [tagSquad, hd]
  rfl

theorem fetch_team_players_empty_squad (team_id : JVal) (get : Nat → GetOutcome)
    (retries : Nat) (fields : Record) (hr : 1 ≤ retries)
    (h0 : get 0 = .ok (.obj fields))
    (hsq : fields.lookup "squad" = none ∨ fields.lookup "squad" = some (.arr [])) :
    fetch_team_players team_id get retries = .ok [] := by
  rcases Nat.exists_eq_add_of_le hr with ⟨f, hf⟩
  subst hf
  unfold fetch_team_players
  rw [show 1 + f = f + 1 from by omega]
  simp only [fetchTeamPlayersAux, h0]
  exact tagSquad_empty team_id fields hsq

end SquadLemmas

section LoopLemmas

theorem fetchAllPlayersLoop_ok (get : JVal → Nat → GetOutcome) (retries : Nat)
    (requests_per_min : ℚ) (hnneg : ¬ requests_per_min < 0) :
    ∀ ids acc fl evs,
      (∀ i ∈ ids, ∃ l, fetch_team_players i (get i) retries = .ok l) →
      fetchAllPlayersLoop get retries requests_per_min ids acc fl evs
        = .ok (acc ++ ids.flatMap (teamRows get retries),
               fl ++ ids.filter (fun i => (teamRows get retries i).isEmpty),
               evs ++ ids.flatMap (fun i => [.fetched i, .slept (60 / requests_per_min)])) := by
  intro ids
  induction ids with
  | nil => intro acc fl evs _; simp [fetchAllPlayersLoop]
  | cons i rest ih =>
    intro acc fl evs h
    rcases h i (List.mem_cons_self _ _) with ⟨l, hl⟩
    have htr : teamRows get retries i = l := by unfold teamRows; rw [hl]
    simp only [fetchAllPlayersLoop, hl]
    rw [if_neg hnneg]
    rw [ih _ _ _ (fun j hj => h j (List.mem_cons_of_mem _ hj))]
    by_cases he : l.isEmpty = true
    · have hnil : l = [] := List.isEmpty_iff.mp he
      subst hnil
      simp [List.flatMap_cons, List.filter_cons, htr, he]
    · simp [List.flatMap_cons, List.filter_cons, htr, he, List.append_assoc]

theorem fetchAllPlayersLoop_fetch_ok (get : JVal → Nat → GetOutcome) (retries : Nat)
    (requests_per_min : ℚ) :
    ∀ ids acc fl evs out,
      fetchAllPlayersLoop get retries requests_per_min ids acc fl evs = .ok out →
      ∀ i ∈ ids, ∃ l, fetch_team_players i (get i) retries = .ok l := by
  intro ids
  induction ids with
  | nil => intro acc fl evs out _ i hi; simp at hi
  | cons j rest ih =>
    intro acc fl evs out h i hi
    cases hf : fetch_team_players j (get j) retries with
    | error e =>
      simp only [fetchAllPlayersLoop, hf] at h
      exact absurd h (by simp)
    | ok l =>
      simp only [fetchAllPlayersLoop, hf] at h
      by_cases hneg : requests_per_min < 0
      · rw [if_pos hneg] at h
        exact absurd h (by simp)
      · rw [if_neg hneg] at h
        rcases List.mem_cons.mp hi with h1 | h2
        · exact ⟨l, h1 ▸ hf⟩
        · exact ih _ _ _ _ h i h2

theorem fetchAllPlayersLoop_ok_nonneg (get : JVal → Nat → GetOutcome) (retries : Nat)
    (requests_per_min : ℚ) (i : JVal) (rest : List JVal)
    (acc : List Record) (fl : List JVal) (evs : List Ev)
    (out : List Record × List JVal × List Ev)
    (h : fetchAllPlayersLoop get retries requests_per_min (i :: rest) acc fl evs = .ok out) :
    ¬ requests_per_min < 0 := by
  intro hneg
  cases hf : fetch_team_players i (get i) retries with
  | error e =>
    simp only [fetchAllPlayersLoop, hf] at h
    exact absurd h (by simp)
  | ok l =>
    simp only [fetchAllPlayersLoop, hf] at h
    rw [if_pos hneg] at h
    exact absurd h (by simp)

theorem dfColumn_ok_mem (rows : List Row) (c : Col) (vs : List JVal)
    (h : dfColumn rows c = .ok vs) : c ∈ columnsOf rows := by
  unfold dfColumn at h
  by_cases hc : c ∈ columnsOf rows
  · exact hc
  · rw [if_neg hc] at h
    simp at h

theorem col_mem_columnsOf (rows : List Row) (r : Row) (c : Col) (w : JVal)
    (hr : r ∈ rows) (hc : (c, w) ∈ r) : c ∈ columnsOf rows := by
  unfold columnsOf
  exact List.mem_flatMap.mpr ⟨r, hr, List.mem_map.mpr ⟨(c, w), hc, rfl⟩⟩

theorem fetch_all_players_ok (df_teams : List Row) (get : JVal → Nat → GetOutcome)
    (rpm : ℚ) (retries : Nat) (br : BatchOutcome)
    (h : fetch_all_players df_teams get rpm retries = .ok br) :
    ∃ ids, dfColumn df_teams ["id"] = .ok ids ∧
      (∀ i ∈ ids, ∃ l, fetch_team_players i (get i) retries = .ok l) ∧
      br.failed_teams = ids.filter (fun i => (teamRows get retries i).isEmpty) ∧
      br.events = ids.flatMap (fun i => [.fetched i, .slept (60 / rpm)]) ∧
      drop_duplicates (json_normalize (ids.flatMap (teamRows get retries))) ["id"]
        = .ok br.df_players := by
  unfold fetch_all_players at h
  by_cases hz : rpm = 0
  · rw [if_pos hz] at h
    simp at h
  · rw [if_neg hz] at h
    split at h
    · exact absurd h (by simp)
    · rename_i ids hc
      split at h
      · exact absurd h (by simp)
      · rename_i trip all_players failed evs hloop
        have hfetch : ∀ i ∈ ids, ∃ l, fetch_team_players i (get i) retries = .ok l :=
          fetchAllPlayersLoop_fetch_ok get retries rpm ids [] [] [] _ hloop
        have hform : (all_players, failed, evs)
            = (ids.flatMap (teamRows get retries),
               ids.filter (fun i => (teamRows get retries i).isEmpty),
               ids.flatMap (fun i => [Ev.fetched i, Ev.slept (60 / rpm)])) := by
          cases ids with
          | nil =>
            rw [show fetchAllPlayersLoop get retries rpm [] [] [] []
                = .ok ([], [], []) from rfl] at hloop
            simp only [Except.ok.injEq] at hloop
            rw [← hloop]
            simp
          | cons i0 rest =>
            have hnneg := fetchAllPlayersLoop_ok_nonneg get retries rpm i0 rest
              [] [] [] _ hloop
            have hfwd := fetchAllPlayersLoop_ok get retries rpm hnneg (i0 :: rest)
              [] [] [] hfetch
            rw [hloop] at hfwd
            simp only [List.nil_append, Except.ok.injEq] at hfwd
            exact hfwd
        simp only [Prod.mk.injEq] at hform
        obtain ⟨hall, hfail, hevs⟩ := hform
        split at h
        · exact absurd h (by simp)
        · rename_i dfp hdd
          refine ⟨ids, hc, hfetch, ?_⟩
          split at h
          · simp only [Except.ok.injEq] at h
            subst h
            refine ⟨hfail.symm ▸ rfl, hevs.symm ▸ rfl, ?_⟩
            rw [hall] at hdd
            exact hdd
          · split at h
            · exact absurd h (by simp)
            · simp only [Except.ok.injEq] at h
              subst h
              refine ⟨hfail.symm ▸ rfl, hevs.symm ▸ rfl, ?_⟩
              rw [hall] at hdd
              exact hdd

end LoopLemmas

section BatchBuildLemmas

theorem teamRows_eq (get : JVal → Nat → GetOutcome) (retries : Nat) (i : JVal)
    (l : List Record) (h : fetch_team_players i (get i) retries = .ok l) :
    teamRows get retries i = l := by
  unfold teamRows
  rw [h]

theorem teamRows_shape (get : JVal → Nat → GetOutcome) (retries : Nat) (i : JVal)
    (hok : ∃ l, fetch_team_players i (get i) retries = .ok l) :
    ∀ rec ∈ teamRows get retries i, ∃ fs, rec = setKey fs "team_id" i := by
  rcases hok with ⟨l, hl⟩
  rw [teamRows_eq get retries i l hl]
  exact fetch_team_players_shape i (get i) retries l hl

theorem fetch_all_players_no_raise (df_teams : List Row) (get : JVal → Nat → GetOutcome)
    (rpm : ℚ) (retries : Nat) (ids : List JVal)
    (hpos : 0 < rpm)
    (hc : dfColumn df_teams ["id"] = .ok ids)
    (hname : ["name"] ∈ columnsOf df_teams)
    (hfetch : ∀ i ∈ ids, ∃ l, fetch_team_players i (get i) retries = .ok l ∧
        ∀ rec ∈ l, (rowLookup (flattenFields [] rec) ["id"]).isSome = true) :
    fetch_all_players df_teams get rpm retries
      = .ok ⟨keepFirstByKey ["id"] (json_normalize (ids.flatMap (teamRows get retries))),
             ids.filter (fun i => (teamRows get retries i).isEmpty),
             ids.flatMap (fun i => [.fetched i, .slept (60 / rpm)])⟩ := by
  have hz : rpm ≠ 0 := hpos.ne'
  have hnneg : ¬ rpm < 0 := not_lt.mpr hpos.le
  have hfetch1 : ∀ i ∈ ids, ∃ l, fetch_team_players i (get i) retries = .ok l :=
    fun i hi => ⟨(hfetch i hi).choose, (hfetch i hi).choose_spec.1⟩
  have hloop := fetchAllPlayersLoop_ok get retries rpm hnneg ids [] [] [] hfetch1
  simp only [List.nil_append] at hloop
  have hid_rows : ∀ r ∈ json_normalize (ids.flatMap (teamRows get retries)),
      ∃ w, rowLookup r ["id"] = some w := by
    intro r hr
    rcases List.mem_map.mp hr with ⟨rec, hrec, hflat⟩
    rcases List.mem_flatMap.mp hrec with ⟨i, hi, hreci⟩
    rcases hfetch i hi with ⟨l, hl, hlid⟩
    rw [teamRows_eq get retries i l hl] at hreci
    have := hlid rec hreci
    rcases Option.isSome_iff_exists.mp (hflat ▸ this) with ⟨w, hw⟩
    exact ⟨w, hw⟩
  have hdd : drop_duplicates (json_normalize (ids.flatMap (teamRows get retries))) ["id"]
      = .ok (keepFirstByKey ["id"] (json_normalize (ids.flatMap (teamRows get retries)))) := by
    cases hr : json_normalize (ids.flatMap (teamRows get retries)) with
    | nil =>
      rw [show drop_duplicates [] ["id"] = .ok [] from rfl, keepFirstByKey_nil]
    | cons r0 rs =>
      have hr0 : r0 ∈ json_normalize (ids.flatMap (teamRows get retries)) := by
        rw [hr]; exact List.mem_cons_self _ _
      rcases hid_rows r0 hr0 with ⟨w, hw⟩
      have hmem : (["id"], w) ∈ r0 := mem_of_lookup_eq_some r0 ["id"] w hw
      have hcol : ["id"] ∈ columnsOf (r0 :: rs) :=
        col_mem_columnsOf (r0 :: rs) r0 ["id"] w (List.mem_cons_self _ _) hmem
      rw [← hr] at hcol ⊢
      apply drop_duplicates_keepFirst
      · unfold dfEmpty
        rw [hr]
        have hcols : columnsOf (r0 :: rs) ≠ [] := by
          intro hnil
          rw [← hr] at hnil
          rw [hnil] at hcol
          simp at hcol
        simp [List.isEmpty_iff, hcols, hr ▸ hcol]
      · exact hcol
  simp only [fetch_all_players, if_neg hz, hc, hloop, hdd]
  by_cases hfe : (ids.filter (fun i => (teamRows get retries i).isEmpty)).isEmpty = true
  · rw [if_pos hfe]
  · rw [if_neg hfe]
    have hrc : requireColumns df_teams [["id"], ["name"]] = .ok () := by
      unfold requireColumns
      rw [if_pos]
      simp only [List.all_cons, List.all_nil, Bool.and_true, Bool.and_eq_true, decide_eq_true_iff]
      exact ⟨dfColumn_ok_mem df_teams ["id"] ids hc, hname⟩
    rw [hrc]

end BatchBuildLemmas

/-- C3: for every retry count `r ≥ 1` and every fetch target whose every
attempt fails (non-200 status or network exception), the HTTP Fetcher
`fetch_json` makes exactly `r` GET attempts and then returns the failure
result (`None`, modeling Exhausted). -/
theorem C3_fetch_json_exhausts (get : Nat → GetOutcome) (r : Nat) (hr : 1 ≤ r)
    (hfail : ∀ i, i < r → (get i).isSuccess = false) :
    fetch_json get r = (none, r) := by
  unfold fetch_json
  have h := fetchJsonAux_all_fail get r 0 (fun i hi => by simpa using hfail i hi)
  simpa using h

/-- Witness for C3 at `r = 2` with every attempt an HTTP 500. -/
theorem C3_witness :
    1 ≤ 2 ∧ fetch_json (fun _ => .httpError 500) 2 = (none, 2) :=
  ⟨by decide,
   C3_fetch_json_exhausts (fun _ => .httpError 500) 2 (by decide) (fun _ _ => rfl)⟩

/-- C4: for every retry count `r ≥ 1` and every fetch target whose first
`j` attempts fail and whose attempt `j + 1 ≤ r` (attempt `k = j + 1` in
the spec's 1-based counting) returns HTTP 200, the HTTP Fetcher
`fetch_json` makes exactly `j + 1` GET attempts and returns the parsed
response body, with no further attempts after the success. -/
theorem C4_fetch_json_succeeds (get : Nat → GetOutcome) (r j : Nat) (p : JVal)
    (hj : j < r) (hfail : ∀ i, i < j → (get i).isSuccess = false)
    (hok : get j = .ok p) :
    fetch_json get r = (some p, j + 1) := by
  unfold fetch_json
  have h := fetchJsonAux_succeeds get r 0 j p hj
    (fun i hi => by simpa using hfail i hi) (by simpa using hok)
  simpa using h

/-- Witness for C4: retries 3, network errors on attempt 1, success on
attempt 2; exactly 2 attempts are made. -/
theorem C4_witness :
    (1 : Nat) < 3
    ∧ fetch_json (fun i => if i = 1 then .ok (.num 7) else .netError "conn") 3
        = (some (.num 7), 2) :=
  ⟨by decide,
   C4_fetch_json_succeeds (fun i => if i = 1 then .ok (.num 7) else .netError "conn") 3 1
     (.num 7) (by decide)
     (fun i hi => by
       have h0 : i = 0 := by omega
       subst h0
       rfl)
     rfl⟩

/-- C10: a team whose fetch succeeds with HTTP 200 but whose payload has
an empty or absent `squad` field makes `fetch_team_players` return the
empty list — the same value returned when all retries are exhausted —
and consequently `fetch_all_players` (run with a positive
requests-per-minute budget, so that the line-167 pacing sleep does not
raise `ValueError`) records that successfully fetched team in
`failed_teams`. -/
theorem C10_empty_squad_counts_as_failed (team_id : JVal) (get get' : Nat → GetOutcome)
    (getB : JVal → Nat → GetOutcome) (retries : Nat) (fields : Record)
    (rpm : ℚ) (nm : JVal)
    (hr : 1 ≤ retries)
    (h0 : get 0 = .ok (.obj fields))
    (hsq : fields.lookup "squad" = none ∨ fields.lookup "squad" = some (.arr []))
    (hfail : ∀ i, i < retries → (get' i).isSuccess = false)
    (hrpm : 0 < rpm)
    (hgB : getB team_id = get) :
    fetch_team_players team_id get retries = .ok []
    ∧ fetch_team_players team_id get' retries = .ok []
    ∧ ∃ br, fetch_all_players [[(["id"], team_id), (["name"], nm)]] getB rpm retries
          = .ok br ∧ br.failed_teams = [team_id] := by
  have hempty := fetch_team_players_empty_squad team_id get retries fields hr h0 hsq
  refine ⟨hempty, fetch_team_players_all_fail team_id get' retries hfail, ?_⟩
  have hc : dfColumn [[(["id"], team_id), (["name"], nm)]] ["id"] = .ok [team_id] := by
    unfold dfColumn
    rw [if_pos (by simp [columnsOf])]
    rfl
  have hfetch : ∀ i ∈ [team_id], ∃ l, fetch_team_players i (getB i) retries = .ok l ∧
      ∀ rec ∈ l, (rowLookup (flattenFields [] rec) ["id"]).isSome = true := by
    intro i hi
    have hit : i = team_id := by simpa using hi
    subst hit
    rw [hgB]
    exact ⟨[], hempty, by simp⟩
  have h := fetch_all_players_no_raise [[(["id"], team_id), (["name"], nm)]] getB rpm retries
    [team_id] hrpm hc (by simp [columnsOf]) hfetch
  refine ⟨_, h, ?_⟩
  have htr : teamRows getB retries team_id = [] := by
    apply teamRows_eq
    rw [hgB]
    exact hempty
  simp [htr]

/-- Witness for C10: team 9, a 200 response with an empty squad on the
first attempt, compared against a schedule of plain failures; the batch
over the one-team frame lists team 9 as failed. -/
theorem C10_witness :
    fetch_team_players (.num 9) (fun _ => .ok (.obj [("squad", .arr [])])) 3 = .ok []
    ∧ fetch_team_players (.num 9) (fun _ => .httpError 404) 3 = .ok []
    ∧ ∃ br, fetch_all_players [[(["id"], JVal.num 9), (["name"], JVal.str "T")]]
          (fun _ _ => .ok (.obj [("squad", .arr [])])) 10 3
        = .ok br ∧ br.failed_teams = [JVal.num 9] :=
  C10_empty_squad_counts_as_failed (.num 9)
    (fun _ => .ok (.obj [("squad", .arr [])])) (fun _ => .httpError 404)
    (fun _ _ => .ok (.obj [("squad", .arr [])])) 3
    [("squad", .arr [])] 10 (.str "T")
    (by decide) rfl (Or.inr rfl) (fun _ _ => rfl) (by norm_num) rfl

section MainLemmas

theorem mainTry_no_close (cfg : Config) (env : Env) :
    (mainTry cfg env).1.countP isCloseAttempt = 0 := by
  unfold mainTry
  cases h : env.connect with
  | error e => rfl
  | ok u =>
    dsimp only
    cases hft : fetch_teams env.teamsGet with
    | error e => rfl
    | ok df =>
      dsimp only
      by_cases hde : dfEmpty df = true
      · rw [if_pos hde]
        rfl
      · rw [if_neg hde]
        cases hfm : fetch_matches env.matchesGet with
        | error e => rfl
        | ok dfm =>
          dsimp only
          cases hfp : fetch_all_players df env.playersGet
              cfg.requests_per_min cfg.retries_per_team with
          | error e => rfl
          | ok br => rfl

end MainLemmas

/-- C5: whatever exception is raised during the orchestrated sequence
(connection, teams fetch, matches fetch, players fetch — the `.error`
outcome of the `try` body), `main` catches it (the run ends in the
`Failed` state instead of propagating), and on every exit path it
attempts `con.close()` exactly once — as the last action — whenever the
connection was acquired, and never otherwise. -/
theorem C5_orchestrator_cleanup (cfg : Config) (env : Env) :
    ((main' cfg env).events.countP isCloseAttempt
        = match env.connect with | .ok _ => 1 | .error _ => 0)
    ∧ (∀ u, env.connect = .ok u → (main' cfg env).events.getLast? = some .closeAttempt)
    ∧ (∀ e, (mainTry cfg env).2 = .error e → (main' cfg env).state = .failed) := by
  refine ⟨?_, ?_, ?_⟩
  · unfold main'
    cases h : env.connect with
    | ok u =>
      simp [List.countP_append, mainTry_no_close, isCloseAttempt, List.countP_cons]
    | error e =>
      simp [mainTry_no_close]
  · intro u hu
    unfold main'
    simp only [hu]
    exact List.getLast?_concat _
  · intro e he
    simp [main', he]

/-- Witness for C5: the teams payload parses to a bare integer, so
`"teams" in data` raises `TypeError` inside the try block; the run ends
`Failed` and the acquired connection is closed exactly once, last. -/
theorem C5_witness :
    ((main' ⟨10, 3⟩
        { connect := .ok (), teamsGet := fun _ => .ok (.num 5),
          matchesGet := fun _ => .httpError 500,
          playersGet := fun _ _ => .httpError 500, closeOk := true }).events.countP
      isCloseAttempt = 1)
    ∧ (main' ⟨10, 3⟩
        { connect := .ok (), teamsGet := fun _ => .ok (.num 5),
          matchesGet := fun _ => .httpError 500,
          playersGet := fun _ _ => .httpError 500, closeOk := true }).events.getLast?
        = some .closeAttempt
    ∧ (main' ⟨10, 3⟩
        { connect := .ok (), teamsGet := fun _ => .ok (.num 5),
          matchesGet := fun _ => .httpError 500,
          playersGet := fun _ _ => .httpError 500, closeOk := true }).state = .failed := by
  refine ⟨(C5_orchestrator_cleanup _ _).1, (C5_orchestrator_cleanup _ _).2.1 () rfl,
    (C5_orchestrator_cleanup _ _).2.2 "TypeError" rfl⟩

/-- C6: in every run whose teams fetch returns an empty frame, the
orchestrator aborts at once: the matches fetch and the players batch
fetch are never invoked, and (when the connection was acquired, so that
the run got as far as the teams fetch) the run ends in the `Aborted`
state. -/
theorem C6_empty_teams_aborts (cfg : Config) (env : Env) (df : List Row)
    (hteams : fetch_teams env.teamsGet = .ok df) (hempty : dfEmpty df = true) :
    MainEv.callMatches ∉ (main' cfg env).events
    ∧ (∀ d, MainEv.callPlayers d ∉ (main' cfg env).events)
    ∧ (∀ u, env.connect = .ok u → (main' cfg env).state = .aborted) := by
  unfold main' mainTry
  cases h : env.connect with
  | error e => simp
  | ok u =>
    rw [hteams]
    simp [hempty]

/-- Witness for C6: a 200 teams response whose payload has no `teams`
field yields the empty frame; matches/players are never called and the
run aborts. -/
theorem C6_witness :
    MainEv.callMatches ∉ (main' ⟨10, 3⟩
        { connect := .ok (), teamsGet := fun _ => .ok (.obj [("count", .num 0)]),
          matchesGet := fun _ => .httpError 500,
          playersGet := fun _ _ => .httpError 500, closeOk := true }).events
    ∧ (∀ d, MainEv.callPlayers d ∉ (main' ⟨10, 3⟩
        { connect := .ok (), teamsGet := fun _ => .ok (.obj [("count", .num 0)]),
          matchesGet := fun _ => .httpError 500,
          playersGet := fun _ _ => .httpError 500, closeOk := true }).events)
    ∧ (main' ⟨10, 3⟩
        { connect := .ok (), teamsGet := fun _ => .ok (.obj [("count", .num 0)]),
          matchesGet := fun _ => .httpError 500,
          playersGet := fun _ _ => .httpError 500, closeOk := true }).state = .aborted := by
  have h := C6_empty_teams_aborts ⟨10, 3⟩
    { connect := .ok (), teamsGet := fun _ => .ok (.obj [("count", .num 0)]),
      matchesGet := fun _ => .httpError 500,
      playersGet := fun _ _ => .httpError 500, closeOk := true } [] rfl rfl
  exact ⟨h.1, h.2.1, h.2.2 () rfl⟩

/-- C7: in every run whose teams fetch is nonempty, the players batch
fetch is invoked on the teams frame regardless of the matches fetch
outcome — in particular a failed matches fetch, which returns the empty
frame rather than raising, neither aborts the run nor changes the
argument the players fetch receives. -/
theorem C7_matches_do_not_gate_players (cfg : Config) (env : Env) (df dfm : List Row)
    (hconn : env.connect = .ok ())
    (hteams : fetch_teams env.teamsGet = .ok df)
    (hne : dfEmpty df = false)
    (hmatches : fetch_matches env.matchesGet = .ok dfm) :
    MainEv.callPlayers df ∈ (main' cfg env).events := by
  unfold main' mainTry
  rw [hconn]
  dsimp only
  rw [hteams]
  dsimp only
  rw [if_neg (by simp [hne]), hmatches]
  dsimp only
  cases hfp : fetch_all_players df env.playersGet
      cfg.requests_per_min cfg.retries_per_team with
  | error e => simp
  | ok br => simp

/-- Witness for C7: two teams, a matches fetch that fails (exhausting its
retries and yielding the empty frame), players invoked on the teams
frame anyway. -/
theorem C7_witness :
    fetch_matches (fun _ => GetOutcome.httpError 500) = .ok []
    ∧ MainEv.callPlayers
        [[(["id"], JVal.num 1), (["name"], JVal.str "A")],
         [(["id"], JVal.num 2), (["name"], JVal.str "B")]]
      ∈ (main' ⟨10, 3⟩
        { connect := .ok ()
          teamsGet := fun _ => .ok (.obj [("teams",
            .arr [.obj [("id", .num 1), ("name", .str "A")],
                  .obj [("id", .num 2), ("name", .str "B")]])])
          matchesGet := fun _ => .httpError 500
          playersGet := fun _ _ => .httpError 429
          closeOk := true }).events :=
  ⟨rfl,
   C7_matches_do_not_gate_players _ _
     [[(["id"], JVal.num 1), (["name"], JVal.str "A")],
      [(["id"], JVal.num 2), (["name"], JVal.str "B")]] [] rfl rfl rfl rfl⟩

/-- Is a JSON value an object?  Team identifiers extracted from a
normalized frame are never objects (flattening expands objects away), so
the batch-level theorems assume id cells satisfy `isObjV i = false`. -/
def isObjV : JVal → Bool
  | .obj _ => true
  | _ => false

section TaggedRowsLemmas

theorem ne_obj_of_isObjV_false (i : JVal) (h : isObjV i = false) :
    ∀ gs, i ≠ JVal.obj gs := by
  intro gs hgs
  subst hgs
  simp [isObjV] at h

theorem rows_tagged (get : JVal → Nat → GetOutcome) (retries : Nat) (ids : List JVal)
    (hfetch : ∀ i ∈ ids, ∃ l, fetch_team_players i (get i) retries = .ok l)
    (hnobj : ∀ i ∈ ids, isObjV i = false) :
    ∀ r ∈ json_normalize (ids.flatMap (teamRows get retries)),
      ∃ i ∈ ids, rowLookup r ["team_id"] = some i ∧
        ∃ rec ∈ teamRows get retries i, r = flattenFields [] rec := by
  intro r hr
  rcases List.mem_map.mp hr with ⟨rec, hrec, hflat⟩
  rcases List.mem_flatMap.mp hrec with ⟨i, hi, hreci⟩
  rcases teamRows_shape get retries i (hfetch i hi) rec hreci with ⟨fs, hfs⟩
  refine ⟨i, hi, ?_, rec, hreci, hflat.symm⟩
  rw [← hflat, hfs]
  exact tagged_lookup fs i (ne_obj_of_isObjV_false i (hnobj i hi))

theorem dfEmpty_false_of_mem (rows : List Row) (r : Row) (c : Col) (w : JVal)
    (hr : r ∈ rows) (hc : (c, w) ∈ r) : dfEmpty rows = false := by
  unfold dfEmpty
  have hcol : c ∈ columnsOf rows := col_mem_columnsOf rows r c w hr hc
  have h1 : rows.isEmpty = false := by
    cases rows with
    | nil => simp at hr
    | cons a b => rfl
  have h2 : (columnsOf rows).isEmpty = false := by
    cases hcl : columnsOf rows with
    | nil => rw [hcl] at hcol; simp at hcol
    | cons a b => rfl
  rw [h1, h2]
  rfl

theorem drop_duplicates_ok_mem (rows : List Row) (k : Col) (out : List Row)
    (hne : dfEmpty rows = false) (h : drop_duplicates rows k = .ok out) :
    k ∈ columnsOf rows := by
  unfold drop_duplicates at h
  rw [if_neg (by simp [hne])] at h
  by_cases hm : k ∈ columnsOf rows
  · exact hm
  · rw [if_neg hm] at h
    simp at h

end TaggedRowsLemmas

/-- C8: deduplication keeps exactly the first occurrence of each key
value, in input order: `drop_duplicates` on a nonempty frame with the
key column present agrees with the spec's keep-first rule; the player
frame returned by the batch fetcher is the keep-first-by-player-id
deduplication of the accumulated normalized rows; and normalizing an
empty record sequence yields the empty row set. -/
theorem C8_dedupe_keeps_first :
    (∀ rows k, dfEmpty rows = false → k ∈ columnsOf rows →
        drop_duplicates rows k = .ok (keepFirstByKey k rows))
    ∧ (∀ df_teams get rpm retries br ids,
        fetch_all_players df_teams get rpm retries = .ok br →
        dfColumn df_teams ["id"] = .ok ids →
        (∀ i ∈ ids, isObjV i = false) →
        br.df_players = keepFirstByKey ["id"] (json_normalize (ids.flatMap (teamRows get retries))))
    ∧ json_normalize [] = []
    ∧ json_normalizeJ (.arr []) = .ok [] := by
  refine ⟨drop_duplicates_keepFirst, ?_, rfl, rfl⟩
  intro df_teams get rpm retries br ids h hids hnobj
  rcases fetch_all_players_ok df_teams get rpm retries br h
    with ⟨ids', hc', hfetch, _hfail, _hevs, hdd⟩
  have hii : ids' = ids := Except.ok.inj (hc'.symm.trans hids)
  subst hii
  cases hr : json_normalize (ids'.flatMap (teamRows get retries)) with
  | nil =>
    rw [hr] at hdd
    rw [show drop_duplicates [] ["id"] = .ok [] from rfl] at hdd
    rw [keepFirstByKey_nil]
    exact (Except.ok.inj hdd).symm
  | cons r0 rs =>
    have hr0 : r0 ∈ json_normalize (ids'.flatMap (teamRows get retries)) := by
      rw [hr]
      exact List.mem_cons_self _ _
    rcases rows_tagged get retries ids' hfetch hnobj r0 hr0 with ⟨i, _, hlook, _⟩
    have hmem : (["team_id"], i) ∈ r0 := mem_of_lookup_eq_some r0 ["team_id"] i hlook
    have hne : dfEmpty (json_normalize (ids'.flatMap (teamRows get retries))) = false :=
      dfEmpty_false_of_mem _ r0 ["team_id"] i hr0 hmem
    have hcol := drop_duplicates_ok_mem _ ["id"] br.df_players hne hdd
    rw [drop_duplicates_keepFirst _ ["id"] hne hcol, hr] at hdd
    exact (Except.ok.inj hdd).symm

/-- Witness for C8: three rows with a duplicated id keep the first
occurrence; a batch run's player frame equals the keep-first
deduplication; empty normalization stays empty. -/
theorem C8_witness :
    drop_duplicates
        [[(["id"], JVal.num 1), (["p"], JVal.str "a")],
         [(["id"], JVal.num 1), (["p"], JVal.str "b")],
         [(["id"], JVal.num 2), (["p"], JVal.str "c")]] ["id"]
      = .ok (keepFirstByKey ["id"]
        [[(["id"], JVal.num 1), (["p"], JVal.str "a")],
         [(["id"], JVal.num 1), (["p"], JVal.str "b")],
         [(["id"], JVal.num 2), (["p"], JVal.str "c")]])
    ∧ json_normalize [] = [] :=
  ⟨C8_dedupe_keeps_first.1
      [[(["id"], JVal.num 1), (["p"], JVal.str "a")],
       [(["id"], JVal.num 1), (["p"], JVal.str "b")],
       [(["id"], JVal.num 2), (["p"], JVal.str "c")]] ["id"] (by decide) (by decide),
   C8_dedupe_keeps_first.2.2.1⟩

/-- C9: for every identifier frame and every positive requests-per-minute
budget, a normally returning batch run performs its events in the order
fetch-then-sleep per identifier, every pacing sleep lasting exactly
`60 / requests_per_min` seconds, one after every identifier's fetch
including the last — so exactly N pacing sleeps for N identifiers. -/
theorem C9_pacing_sleeps (df_teams : List Row) (get : JVal → Nat → GetOutcome)
    (rpm : ℚ) (retries : Nat) (br : BatchOutcome) (ids : List JVal)
    (hpos : 0 < rpm)
    (h : fetch_all_players df_teams get rpm retries = .ok br)
    (hids : dfColumn df_teams ["id"] = .ok ids) :
    br.events = ids.flatMap (fun i => [.fetched i, .slept (60 / rpm)])
    ∧ br.events.filter isSleptEv = List.replicate ids.length (.slept (60 / rpm))
    ∧ br.events.countP isSleptEv = ids.length := by
  rcases fetch_all_players_ok df_teams get rpm retries br h
    with ⟨ids', hc', _hfetch, _hfail, hevs, _hdd⟩
  have hii : ids' = ids := Except.ok.inj (hc'.symm.trans hids)
  subst hii
  have hfilter : ∀ l : List JVal,
      (l.flatMap fun i => [Ev.fetched i, Ev.slept (60 / rpm)]).filter isSleptEv
        = List.replicate l.length (.slept (60 / rpm)) := by
    intro l
    induction l with
    | nil => rfl
    | cons i rest ih =>
      rw [List.flatMap_cons, List.filter_append, ih]
      rfl
  refine ⟨hevs, ?_, ?_⟩
  · rw [hevs]
    exact hfilter ids'
  · rw [List.countP_eq_length_filter, hevs, hfilter ids', List.length_replicate]

/-- Witness for C9: two teams, both exhausting retries, at 10 requests
per minute: the events alternate fetch and a 6-second sleep, with
exactly 2 pacing sleeps. -/
theorem C9_witness :
    ((0 : ℚ) < 10)
    ∧ ((⟨[], [JVal.num 1, JVal.num 2],
          [.fetched (.num 1), .slept (60 / 10), .fetched (.num 2),
           .slept (60 / 10)]⟩ : BatchOutcome).events
        = [JVal.num 1, JVal.num 2].flatMap
            (fun i => [Ev.fetched i, Ev.slept ((60 : ℚ) / 10)]))
    ∧ ((⟨[], [JVal.num 1, JVal.num 2],
          [.fetched (.num 1), .slept (60 / 10), .fetched (.num 2),
           .slept (60 / 10)]⟩ : BatchOutcome).events.countP isSleptEv
        = [JVal.num 1, JVal.num 2].length) := by
  have h := C9_pacing_sleeps
    [[(["id"], JVal.num 1), (["name"], JVal.str "A")],
     [(["id"], JVal.num 2), (["name"], JVal.str "B")]]
    (fun _ _ => .httpError 429) 10 3
    ⟨[], [JVal.num 1, JVal.num 2],
      [.fetched (.num 1), .slept (60 / 10), .fetched (.num 2), .slept (60 / 10)]⟩
    [JVal.num 1, JVal.num 2]
    (by norm_num) rfl rfl
  exact ⟨by norm_num, h.1, h.2.2⟩

/-- Attempt schedule of the C1 counterexample: every team's fetch returns
HTTP 200 with a squad holding the single player id 7. -/
def C1cexGet : JVal → Nat → GetOutcome :=
  fun _ _ => .ok (.obj [("squad", .arr [.obj [("id", .num 7)]])])

/-- Batch outcome the C1 counterexample run produces: deduplication by
player id erased team 2's only row, yet team 2 is not in
`failed_teams`. -/
def C1cexBatch : BatchOutcome :=
  ⟨[[(["id"], JVal.num 7), (["team_id"], JVal.num 1)]], [],
   [.fetched (.num 1), .slept (60 / 10), .fetched (.num 2), .slept (60 / 10)]⟩

/-- C1 fails as stated: when two successfully fetched teams share a
player id, `drop_duplicates(subset=['id'])` drops the later team's only
contribution, so that identifier appears neither as a `team_id` tag in
the returned rows nor in `failed_teams`. -/
theorem C1_counterexample :
    fetch_all_players [[(["id"], JVal.num 1)], [(["id"], JVal.num 2)]] C1cexGet 10 3
      = .ok C1cexBatch
    ∧ ¬ partitionInvariant [JVal.num 1, JVal.num 2] C1cexBatch := by
  constructor
  · rfl
  · intro hpart
    rcases hpart (JVal.num 2) (by simp) with ⟨⟨r, hr, hlook⟩, _⟩ | ⟨_, hmem⟩
    · simp only [C1cexBatch, List.mem_singleton] at hr
      subst hr
      exact absurd hlook (by decide)
    · simp [C1cexBatch] at hmem

/-- C1 (amended): when the batch fetcher returns normally, the team
identifiers are not JSON objects (as holds for every cell of a
normalized frame), and distinct identifiers never contribute records
with a common player id (player ids are globally unique across teams),
then every input identifier appears exactly once: either as the
`team_id` tag of at least one returned row, or in `failed_teams` —
never both, never neither. -/
theorem C1_partition_amended (df_teams : List Row) (get : JVal → Nat → GetOutcome)
    (rpm : ℚ) (retries : Nat) (br : BatchOutcome) (ids : List JVal)
    (h : fetch_all_players df_teams get rpm retries = .ok br)
    (hids : dfColumn df_teams ["id"] = .ok ids)
    (hnobj : ∀ i ∈ ids, isObjV i = false)
    (hdisj : ∀ i ∈ ids, ∀ j ∈ ids, i ≠ j →
      ∀ v ∈ (teamRows get retries i).map (fun rec => rowLookup (flattenFields [] rec) ["id"]),
        v ∉ (teamRows get retries j).map (fun rec => rowLookup (flattenFields [] rec) ["id"])) :
    partitionInvariant ids br := by
  rcases fetch_all_players_ok df_teams get rpm retries br h
    with ⟨ids', hc', hfetch, hfail, _hevs, hdd⟩
  have hii : ids' = ids := Except.ok.inj (hc'.symm.trans hids)
  subst hii
  have htag := rows_tagged get retries ids' hfetch hnobj
  have hsub := (drop_duplicates_spec _ _ _ hdd).1
  have hcov := (drop_duplicates_spec _ _ _ hdd).2
  intro i hi
  by_cases he : (teamRows get retries i).isEmpty = true
  · right
    constructor
    · rintro ⟨r, hr, hlook⟩
      rcases htag r (hsub r hr) with ⟨j, _hj, hlookj, rec, hrecj, _⟩
      have hji : j = i := Option.some.inj (hlookj.symm.trans hlook)
      subst hji
      rw [List.isEmpty_iff.mp he] at hrecj
      simp at hrecj
    · rw [hfail]
      exact List.mem_filter.mpr ⟨hi, he⟩
  · left
    refine ⟨?_, ?_⟩
    · obtain ⟨rec0, hrec0⟩ : ∃ rec, rec ∈ teamRows get retries i := by
        cases hh : teamRows get retries i with
        | nil => rw [hh] at he; simp at he
        | cons a b => exact ⟨a, List.mem_cons_self _ _⟩
      have hvrows : rowLookup (flattenFields [] rec0) ["id"]
          ∈ (json_normalize (ids'.flatMap (teamRows get retries))).map
              (fun r => rowLookup r ["id"]) := by
        apply List.mem_map.mpr
        refine ⟨flattenFields [] rec0, ?_, rfl⟩
        exact List.mem_map.mpr ⟨rec0, List.mem_flatMap.mpr ⟨i, hi, hrec0⟩, rfl⟩
      rcases hcov _ hvrows with ⟨r, hr, hrv⟩
      rcases htag r (hsub r hr) with ⟨j, hj, hlookj, rec1, hrec1, hrflat⟩
      by_cases hji : j = i
      · subst hji
        exact ⟨r, hr, hlookj⟩
      · exfalso
        apply hdisj i hi j hj (fun hij => hji hij.symm)
          (rowLookup (flattenFields [] rec0) ["id"])
          (List.mem_map.mpr ⟨rec0, hrec0, rfl⟩)
        apply List.mem_map.mpr
        refine ⟨rec1, hrec1, ?_⟩
        rw [hrflat] at hrv
        exact hrv
    · rw [hfail]
      intro hmem
      exact absurd (List.mem_filter.mp hmem).2 he

/-- Witness for C1 (amended): team 1 succeeds with player 7, team 2
exhausts its retries; the partition invariant holds — team 1 tags a row,
team 2 is exactly in `failed_teams`. -/
theorem C1_witness :
    partitionInvariant [JVal.num 1, JVal.num 2]
      ⟨[[(["id"], JVal.num 7), (["team_id"], JVal.num 1)]], [JVal.num 2],
       [.fetched (.num 1), .slept (60 / 10), .fetched (.num 2), .slept (60 / 10)]⟩ :=
  C1_partition_amended
    [[(["id"], JVal.num 1), (["name"], JVal.str "A")],
     [(["id"], JVal.num 2), (["name"], JVal.str "B")]]
    (fun i _ => if i = JVal.num 1
      then .ok (.obj [("squad", .arr [.obj [("id", .num 7)]])])
      else .httpError 429)
    10 3
    ⟨[[(["id"], JVal.num 7), (["team_id"], JVal.num 1)]], [JVal.num 2],
     [.fetched (.num 1), .slept (60 / 10), .fetched (.num 2), .slept (60 / 10)]⟩
    [JVal.num 1, JVal.num 2]
    rfl rfl (by decide) (by decide)

/-- Attempt schedule of the C2 counterexample: one team, HTTP 200, but
its squad record lacks an `id` field. -/
def C2cexGet : JVal → Nat → GetOutcome :=
  fun _ _ => .ok (.obj [("squad", .arr [.obj [("name", .str "x")]])])

/-- C2 fails as stated: `fetch_all_players` does raise for some outcome
assignments — a squad record without an `id` field leaves the normalized
frame without an `id` column, and `drop_duplicates(subset=['id'])`
raises `KeyError` after the loop. -/
theorem C2_counterexample :
    fetch_all_players [[(["id"], JVal.num 5), (["name"], JVal.str "E")]] C2cexGet 10 3
      = .error "KeyError" := rfl

/-- C2 (amended): for every identifier frame carrying `id` and `name`
columns, every positive requests-per-minute budget (a zero budget makes
line 158 raise `ZeroDivisionError` and a negative one makes the
line-167 `time.sleep` raise `ValueError`), and every outcome assignment
under which each per-team fetch returns (with every returned squad
record carrying a player id — as the API guarantees),
`fetch_all_players` never raises: it returns normally, each failing
identifier having been appended to `failed_teams` while processing
continued through all remaining identifiers.  This includes the case
where every identifier fails. -/
theorem C2_no_raise_amended (df_teams : List Row) (get : JVal → Nat → GetOutcome)
    (rpm : ℚ) (retries : Nat) (ids : List JVal)
    (hpos : 0 < rpm)
    (hc : dfColumn df_teams ["id"] = .ok ids)
    (hname : ["name"] ∈ columnsOf df_teams)
    (hfetch : ∀ i ∈ ids, ∃ l, fetch_team_players i (get i) retries = .ok l ∧
        ∀ rec ∈ l, (rowLookup (flattenFields [] rec) ["id"]).isSome = true) :
    ∃ br, fetch_all_players df_teams get rpm retries = .ok br
      ∧ br.failed_teams = ids.filter (fun i => (teamRows get retries i).isEmpty)
      ∧ ∀ i ∈ ids, teamRows get retries i = [] → i ∈ br.failed_teams := by
  refine ⟨_, fetch_all_players_no_raise df_teams get rpm retries ids hpos hc hname hfetch,
    rfl, ?_⟩
  intro i hi hempty
  exact List.mem_filter.mpr ⟨hi, by rw [hempty]; rfl⟩

/-- Witness for C2 (amended), at the all-fail assignment: both teams
exhaust retries, the batch returns normally with both identifiers in
`failed_teams`. -/
theorem C2_witness :
    ∃ br, fetch_all_players
        [[(["id"], JVal.num 1), (["name"], JVal.str "A")],
         [(["id"], JVal.num 2), (["name"], JVal.str "B")]]
        (fun _ _ => .netError "timeout") 10 3 = .ok br
      ∧ br.failed_teams = [JVal.num 1, JVal.num 2].filter
          (fun i => (teamRows (fun _ _ => GetOutcome.netError "timeout") 3 i).isEmpty)
      ∧ ∀ i ∈ [JVal.num 1, JVal.num 2],
          teamRows (fun _ _ => GetOutcome.netError "timeout") 3 i = []
            → i ∈ br.failed_teams :=
  C2_no_raise_amended
    [[(["id"], JVal.num 1), (["name"], JVal.str "A")],
     [(["id"], JVal.num 2), (["name"], JVal.str "B")]]
    (fun _ _ => .netError "timeout") 10 3 [JVal.num 1, JVal.num 2]
    (by norm_num) rfl (by decide)
    (fun i _ => ⟨[], rfl, by simp⟩)
